/-
  Verification of the Ariadne core pipeline (ingest → validate → truncate →
  store → broadcast) against its natural-language specification.

  Shallow embedding of the TypeScript sources:
    - src/api/src/middleware/truncate.ts      (truncateString, truncateDataField, truncateEvent)
    - src/packages/shared/src/schemas.ts      (TraceEventSchema, SpanEventSchema, IngestPayloadSchema)
    - src/api/src/store/eventStore.ts         (RingBuffer, EventStore)
    - src/api/src/store/sseManager.ts         (SSEManager: broadcast, matchesFilter, flush, heartbeat)
    - src/api/src/routes/ingest.ts            (POST /ingest)
    - request size-limit middleware           (sizeLimit)

  JavaScript strings are modelled as lists of UTF-16 code units
  (`JsStr := List Nat`), which matches the semantics of `.length`,
  `.substring`, and string concatenation exactly, including at surrogate
  boundaries.  JSON values inside a span's `data` are modelled by the
  inductive `JsValue`.
-/
import Mathlib

set_option maxRecDepth 100000

namespace Ariadne

/-! ## JavaScript strings as UTF-16 code-unit sequences -/

/-- A JavaScript string: the sequence of its UTF-16 code units.
`s.length`, `s.substring(0, n)` and `a + b` in JS are `List.length`,
`List.take n` and `List.append` in this model. -/
abbrev JsStr := List Nat

/-- Encode a Lean string (a sequence of Unicode code points) as a JS
string: code points below `0x10000` are one code unit; astral code
points become a surrogate pair. -/
def jsStr (s : String) : JsStr :=
  s.toList.flatMap fun c =>
    if c.toNat < 0x10000 then [c.toNat]
    else
      let v := c.toNat - 0x10000
      [0xD800 + v / 0x400, 0xDC00 + v % 0x400]

/-- UTF-8 bytes of a single code unit outside a surrogate pair (a lone
surrogate becomes U+FFFD, 3 bytes). -/
def utf8Single (u : Nat) : Nat :=
  if u < 0x80 then 1 else if u < 0x800 then 2 else 3

/-- Number of bytes of the UTF-8 encoding of a JS string (as produced by
`TextEncoder`): a valid surrogate pair encodes in 4 bytes. -/
def utf8Len : JsStr → Nat
  | [] => 0
  | [u] => utf8Single u
  | u :: v :: rest =>
    if 0xD800 ≤ u ∧ u < 0xDC00 then
      if 0xDC00 ≤ v ∧ v < 0xE000 then 4 + utf8Len rest
      else utf8Single u + utf8Len (v :: rest)
    else utf8Single u + utf8Len (v :: rest)

/-! ## Truncator (src/api/src/middleware/truncate.ts) -/

/-- `MAX_NAME_LENGTH = 1024` (truncate.ts line 9). -/
def MAX_NAME_LENGTH : Nat := 1024

/-- `MAX_DATA_VALUE_LENGTH = 100 * 1024` (truncate.ts line 10). -/
def MAX_DATA_VALUE_LENGTH : Nat := 100 * 1024

/-- The literal suffix `'... [truncated]'` appended by `truncateString`. -/
def truncationSuffix : JsStr := jsStr ("... [truncated]")

/-- `truncateString` (truncate.ts lines 12-15):
`if (str.length <= maxLength) return str; return str.substring(0, maxLength) + '... [truncated]'`. -/
def truncateString (str : JsStr) (maxLength : Nat) : JsStr :=
  if str.length ≤ maxLength then str
  else str.take maxLength ++ truncationSuffix

/-- A JSON value, as carried inside a span's `data` record.  Numbers are
opaque to the core (never computed with), so their payload is irrelevant;
we carry an `Int` tag. -/
inductive JsValue where
  | str (s : JsStr)
  | num (n : Int)
  | bool (b : Bool)
  | null
  | arr (elems : List JsValue)
  | obj (fields : List (JsStr × JsValue))

/-- `truncateDataField` (truncate.ts lines 17-32): truncate string values
at `MAX_DATA_VALUE_LENGTH`, recurse into non-array objects (`value &&
typeof value === 'object' && !Array.isArray(value)`), pass everything
else (numbers, booleans, `null`, arrays) through untouched. -/
def truncateDataField : List (JsStr × JsValue) → List (JsStr × JsValue)
  | [] => []
  | (k, JsValue.str s) :: rest =>
      (k, JsValue.str (truncateString s MAX_DATA_VALUE_LENGTH)) :: truncateDataField rest
  | (k, JsValue.obj fields) :: rest =>
      (k, JsValue.obj (truncateDataField fields)) :: truncateDataField rest
  | (k, v) :: rest => (k, v) :: truncateDataField rest
termination_by l => sizeOf l

/-! ## Events on the wire -/

/-- A wire event as received by `POST /ingest`, before validation.
Fields are modelled at their schema types (schemas.ts lines 11-51), each
optional where the schema marks it `.optional()`; `type` is the raw type
tag, so unknown tags are representable.  `data` is a JSON record. -/
structure RawEvent where
  type : JsStr
  trace_id : Option JsStr := none
  span_id : Option JsStr := none
  parent_id : Option JsStr := none
  kind : Option JsStr := none
  name : Option JsStr := none
  group_id : Option JsStr := none
  started_at : Option JsStr := none
  ended_at : Option JsStr := none
  data : Option (List (JsStr × JsValue)) := none
  status : Option JsStr := none
  metadata : Option (List (JsStr × JsStr)) := none

/-- `truncateEvent` (truncate.ts lines 34-48): copy the event; if
`truncated.name` is truthy (present and non-empty) truncate it at
`MAX_NAME_LENGTH`; if the event's `type` is `'span'` and `data` is
present (an object is always truthy) truncate its string values. -/
def truncateEvent (event : RawEvent) : RawEvent :=
  let e1 :=
    match event.name with
    | some s =>
      if s = [] then event
      else { event with name := some (truncateString s MAX_NAME_LENGTH) }
    | none => event
  match e1.data with
  | some d =>
    if e1.type = jsStr ("span") then { e1 with data := some (truncateDataField d) } else e1
  | none => e1

/-! ## Timestamps

`z.string().datetime()` checks the RFC 3339 UTC shape
`YYYY-MM-DDTHH:MM:SS(.fractional)?Z`, and the schema refinements and the
`since` filter compare values via JavaScript `new Date(...)`.  We model
the shape check and the epoch-millisecond value of such strings; strings
outside this shape parse to `none` (JavaScript's `NaN` / Invalid Date). -/

/-- Code unit of an ASCII digit? -/
def isDigitU (u : Nat) : Bool := 48 ≤ u && u ≤ 57

/-- Read exactly `n` digits, accumulating their value. -/
def readDigits : Nat → JsStr → Nat → Option (Nat × JsStr)
  | 0, s, acc => some (acc, s)
  | n + 1, u :: rest, acc =>
    if isDigitU u then readDigits n rest (acc * 10 + (u - 48)) else none
  | _ + 1, [], _ => none

/-- Consume one expected code unit. -/
def expect (u : Nat) : JsStr → Option JsStr
  | v :: rest => if v = u then some rest else none
  | [] => none

/-- Longest leading run of digits (their values) and the remainder. -/
def spanDigits : JsStr → List Nat × JsStr
  | [] => ([], [])
  | u :: rest =>
    if isDigitU u then
      let (ds, r) := spanDigits rest
      ((u - 48) :: ds, r)
    else ([], u :: rest)

/-- Milliseconds denoted by a fractional-second digit run (JavaScript
keeps millisecond precision). -/
def fracMs (ds : List Nat) : Nat :=
  ds.getD 0 0 * 100 + ds.getD 1 0 * 10 + ds.getD 2 0

/-- Parse `YYYY-MM-DDTHH:MM:SS(.d+)?Z` into
`(year, month, day, hour, minute, second, millisecond)`. -/
def parseDatetimeParts (s : JsStr) : Option (Nat × Nat × Nat × Nat × Nat × Nat × Nat) := do
  let (y, s1) ← readDigits 4 s 0
  let s2 ← expect 45 s1
  let (mo, s3) ← readDigits 2 s2 0
  let s4 ← expect 45 s3
  let (d, s5) ← readDigits 2 s4 0
  let s6 ← expect 84 s5
  let (h, s7) ← readDigits 2 s6 0
  let s8 ← expect 58 s7
  let (mi, s9) ← readDigits 2 s8 0
  let s10 ← expect 58 s9
  let (se, s11) ← readDigits 2 s10 0
  let (ms, s12) ←
    match s11 with
    | 46 :: rest =>
      let (ds, r) := spanDigits rest
      if ds = [] then none else some (fracMs ds, r)
    | other => some (0, other)
  match s12 with
  | [90] =>
    if 1 ≤ mo ∧ mo ≤ 12 ∧ 1 ≤ d ∧ d ≤ 31 ∧ h ≤ 23 ∧ mi ≤ 59 ∧ se ≤ 59 then
      some (y, mo, d, h, mi, se, ms)
    else none
  | _ => none

/-- Matches `z.string().datetime()` (UTC, optional fractional seconds). -/
def isDatetime (s : JsStr) : Bool := (parseDatetimeParts s).isSome

/-- Days since 1970-01-01 of a civil date (Howard Hinnant's
`days_from_civil`, exact for truncating integer division). -/
def daysFromCivil (y m d : Int) : Int :=
  let y' := if m ≤ 2 then y - 1 else y
  let era := (if 0 ≤ y' then y' else y' - 399) / 400
  let yoe := y' - era * 400
  let doy := (153 * (if m > 2 then m - 3 else m + 9) + 2) / 5 + d - 1
  let doe := yoe * 365 + yoe / 4 - yoe / 100 + doy
  era * 146097 + doe - 719468

/-- Epoch milliseconds of a datetime string, `none` when the string does
not have the RFC 3339 UTC shape (JavaScript's Invalid Date / `NaN`). -/
def parseDate (s : JsStr) : Option Int :=
  (parseDatetimeParts s).map fun (y, mo, d, h, mi, se, ms) =>
    daysFromCivil y mo d * 86400000 + h * 3600000 + mi * 60000 + se * 1000 + ms

/-! ## Validator (src/packages/shared/src/schemas.ts)

The schema declarations in schemas.ts are the authority for what counts
as a violation.  The zod library's union-error presentation is modelled
as: the branch selected by the event's `type` literal reports its full
issue list; the `.refine` ordering check runs only when the base object
parses (zod aborts refinements on base failure). -/

/-- One entry of a zod issue path: an object key or an array index. -/
inductive PathElem where
  | key (k : JsStr)
  | idx (i : Nat)
  deriving DecidableEq, Repr

/-- A validation issue as surfaced by `POST /ingest`: the offending
field path and a message (ingest.ts lines 54-57). -/
structure Issue where
  path : List PathElem
  message : JsStr
  deriving DecidableEq, Repr

/-- Issues of `z.string().min(1)` on a required identifier field. -/
def requiredNonempty (field : JsStr) (v : Option JsStr) : List Issue :=
  match v with
  | none => [⟨[.key field], jsStr ("Required")⟩]
  | some s =>
    if s = [] then [⟨[.key field], jsStr ("String must contain at least 1 character(s)")⟩]
    else []

/-- Issues of `z.string().datetime().optional()`. -/
def datetimeIssues (field : JsStr) (v : Option JsStr) : List Issue :=
  match v with
  | none => []
  | some s => if isDatetime s then [] else [⟨[.key field], jsStr ("Invalid datetime")⟩]

/-- Issues of `z.enum(['ok', 'error']).optional()` on `status`. -/
def statusIssues (v : Option JsStr) : List Issue :=
  match v with
  | none => []
  | some s =>
    if s = jsStr ("ok") ∨ s = jsStr ("error") then []
    else [⟨[.key (jsStr ("status"))], jsStr ("Invalid enum value")⟩]

/-- The `.refine` check of schemas.ts lines 19-27 and 43-51:
`if (data.started_at && data.ended_at) return new Date(started_at) <=
new Date(ended_at)`.  Empty strings are falsy; a comparison involving an
Invalid Date (`NaN`) is false, failing the refinement. -/
def refineOrderOk (startedAt endedAt : Option JsStr) : Bool :=
  match startedAt, endedAt with
  | some s, some en =>
    if s = [] ∨ en = [] then true
    else
      match parseDate s, parseDate en with
      | some a, some b => a ≤ b
      | _, _ => false
  | _, _ => true

/-- Base-object issues of `TraceEventSchema` (schemas.ts lines 11-18). -/
def traceBaseIssues (e : RawEvent) : List Issue :=
  requiredNonempty (jsStr ("trace_id")) e.trace_id ++
    datetimeIssues (jsStr ("started_at")) e.started_at ++
    datetimeIssues (jsStr ("ended_at")) e.ended_at

/-- Base-object issues of `SpanEventSchema` (schemas.ts lines 32-42). -/
def spanBaseIssues (e : RawEvent) : List Issue :=
  requiredNonempty (jsStr ("trace_id")) e.trace_id ++
    requiredNonempty (jsStr ("span_id")) e.span_id ++
    datetimeIssues (jsStr ("started_at")) e.started_at ++
    datetimeIssues (jsStr ("ended_at")) e.ended_at ++
    statusIssues e.status

/-- The `.refine` failure issue: path `[]`, the message declared in
schemas.ts lines 26 and 50. -/
def orderingIssue : Issue := ⟨[], jsStr ("ended_at must be >= started_at")⟩

/-- All validation issues of one event against `TraceOrSpanSchema`
(schemas.ts line 56): the branch matching the `type` literal reports its
issues; an unknown `type` fails both branches. -/
def validateEvent (e : RawEvent) : List Issue :=
  if e.type = jsStr ("trace") then
    let base := traceBaseIssues e
    if base = [] then
      if refineOrderOk e.started_at e.ended_at then [] else [orderingIssue]
    else base
  else if e.type = jsStr ("span") then
    let base := spanBaseIssues e
    if base = [] then
      if refineOrderOk e.started_at e.ended_at then [] else [orderingIssue]
    else base
  else [⟨[.key (jsStr ("type"))], jsStr ("Invalid input")⟩]

/-! ## Ring buffer (src/api/src/store/eventStore.ts, `RingBuffer`)

The JS array `new Array(maxSize)` starts with holes, modelled as `none`;
slots hold `some e` once written.  The source is element-type agnostic,
so the model is parameterised. -/

structure RingBuffer (α : Type) where
  buffer : List (Option α)
  head : Nat
  size : Nat
  count : Nat

namespace RingBuffer

/-- `new RingBuffer(maxSize)` (eventStore.ts constructor). -/
def create (α : Type) (maxSize : Nat) : RingBuffer α :=
  ⟨List.replicate maxSize none, 0, maxSize, 0⟩

/-- `append` (eventStore.ts lines 133-139): write at `head`, advance
`head` modulo `size`, bump `count` while below capacity. -/
def append (rb : RingBuffer α) (event : α) : RingBuffer α :=
  { rb with
    buffer := rb.buffer.set rb.head (some event)
    head := (rb.head + 1) % rb.size
    count := if rb.count < rb.size then rb.count + 1 else rb.count }

/-- `getAll` (eventStore.ts lines 145-152): not-yet-full → the first
`count` slots; full → from `head` to the end, then the start to `head`. -/
def getAll (rb : RingBuffer α) : List (Option α) :=
  if rb.count < rb.size then rb.buffer.take rb.count
  else rb.buffer.drop rb.head ++ rb.buffer.take rb.head

/-- `getCount` (eventStore.ts line 165). -/
def getCount (rb : RingBuffer α) : Nat := rb.count

/-- `getSize` (eventStore.ts line 172). -/
def getSize (rb : RingBuffer α) : Nat := rb.size

/-- Append a whole list in order. -/
def appendAll (rb : RingBuffer α) (events : List α) : RingBuffer α :=
  events.foldl append rb

end RingBuffer

/-! ## Event store (src/api/src/store/eventStore.ts, `EventStore`) -/

/-- One trace-index entry: `{ traceEvent: TraceEvent | null, spans: SpanEvent[] }`. -/
structure Trace where
  traceEvent : Option RawEvent
  spans : List RawEvent

/-- The JS `Map` keyed by `trace_id`, in insertion order. -/
abbrev TraceIndex := List (JsStr × Trace)

/-- `Map.get`. -/
def mapGet (m : TraceIndex) (k : JsStr) : Option Trace :=
  (m.find? fun p => p.1 == k).map (·.2)

/-- `Map.set`: update in place when the key exists, else append. -/
def mapSet (m : TraceIndex) (k : JsStr) (v : Trace) : TraceIndex :=
  match m with
  | [] => [(k, v)]
  | (k', v') :: rest => if k' == k then (k', v) :: rest else (k', v') :: mapSet rest k v

structure EventStore where
  buffer : RingBuffer RawEvent
  traceIndex : TraceIndex

/-- `EventStore.append` (eventStore.ts lines 26-43): delegate to the
ring buffer; a `trace` event replaces the trace slot of its id, a span
is pushed onto the trace's span list. -/
def EventStore.append (st : EventStore) (event : RawEvent) : EventStore :=
  let tid := event.trace_id.getD []
  let trace :=
    match mapGet st.traceIndex tid with
    | some t => t
    | none => ⟨none, []⟩
  let trace' :=
    if event.type = jsStr ("trace") then { trace with traceEvent := some event }
    else { trace with spans := trace.spans ++ [event] }
  { buffer := st.buffer.append event, traceIndex := mapSet st.traceIndex tid trace' }

/-! ## SSE connection manager (src/api/src/store/sseManager.ts) -/

/-- A frame successfully enqueued on a subscriber's stream: an event
`data:` frame, the initial `connected` `data:` frame, or a comment
frame (`:<text>\n\n`). -/
inductive Frame where
  | event (e : RawEvent)
  | connected (timestamp : JsStr)
  | comment (text : JsStr)

/-- Wire bytes of a comment frame (sendComment, sseManager.ts line 167:
`` `:${comment}\n\n` ``); 58 is `:`, 10 is `\n`. -/
def commentBytes (text : JsStr) : JsStr := 58 :: text ++ [10, 10]

/-- `ConnectionFilter` (sseManager.ts lines 18-22).  `kinds` is a
`Set<string>` modelled by its membership list; `since` is a valid
`Date`, modelled by its epoch milliseconds (the /events route rejects
invalid `since` values with 400 before a connection exists). -/
structure ConnectionFilter where
  traceId : Option JsStr := none
  kinds : Option (List JsStr) := none
  since : Option Int := none

/-- `SSEConnection` (sseManager.ts lines 8-16), plus the observables of
its stream: `sink` is the list of frames successfully enqueued on the
`ReadableStream` controller, and `sinkBroken` models
`controller.enqueue` throwing (the client is gone). -/
structure SSEConnection where
  id : Nat
  queue : List RawEvent
  maxQueueSize : Nat
  filter : Option ConnectionFilter
  lastHeartbeat : Int
  connected : Bool
  sink : List Frame
  sinkBroken : Bool

/-- `MAX_QUEUE_SIZE = 5000` (sseManager.ts line 28). -/
def MAX_QUEUE_SIZE : Nat := 5000

/-- The backpressure comment text (sseManager.ts line 97). -/
def backpressureComment : JsStr := jsStr ("warning stream backpressure; events skipped")

/-- `createConnection` (sseManager.ts lines 38-66): fresh id, empty
queue, capacity `MAX_QUEUE_SIZE`, the given filter, `lastHeartbeat :=
Date.now()`, connected; the initial `connected` control frame is sent
immediately. -/
def createConnection (filter : Option ConnectionFilter) (nextId : Nat) (now : Int)
    (timestamp : JsStr) : SSEConnection :=
  { id := nextId, queue := [], maxQueueSize := MAX_QUEUE_SIZE, filter := filter,
    lastHeartbeat := now, connected := true,
    sink := [Frame.connected timestamp], sinkBroken := false }

/-- `matchesFilter` (sseManager.ts lines 111-133), with JavaScript
truthiness preserved: an empty-string `filter.traceId` is falsy (check
skipped); `!event.kind` is true for a missing or empty `kind`; an
empty-string `started_at` is falsy (check skipped); a comparison
against an Invalid Date (`NaN`) is false, so an unparseable
`started_at` passes the `since` check. -/
def sinceRejects (startedAt : JsStr) (since : Option Int) : Bool :=
  match parseDate startedAt, since with
  | some t, some s => t < s
  | _, _ => false

def matchesFilter (event : RawEvent) (filter : ConnectionFilter) : Bool :=
  if filter.traceId.getD [] ≠ [] ∧ event.trace_id ≠ filter.traceId then false
  else if filter.kinds.isSome ∧ event.type = jsStr ("span") ∧
      (event.kind.getD [] = [] ∨ (filter.kinds.getD []).contains (event.kind.getD []) = false) then
    false
  else if filter.since.isSome ∧ event.type = jsStr ("span") ∧ event.started_at.getD [] ≠ [] ∧
      sinceRejects (event.started_at.getD []) filter.since = true then
    false
  else true

/-- `if (connection.filter && !matchesFilter(event, connection.filter)) continue`
(sseManager.ts line 89): an absent filter accepts every event. -/
def filterAccepts (filter : Option ConnectionFilter) (event : RawEvent) : Bool :=
  match filter with
  | some f => matchesFilter event f
  | none => true

/-- `flushConnection` (sseManager.ts lines 138-143): shift and send
while the queue is non-empty and the connection is live; a send on a
broken sink removes the connection (`removeConnection` sets
`connected := false` and deletes the registry entry), ending the loop. -/
def flushAux : List RawEvent → SSEConnection → SSEConnection
  | [], c => { c with queue := [] }
  | e :: rest, c =>
    if c.connected = false then { c with queue := e :: rest }
    else if c.sinkBroken then { c with queue := rest, connected := false }
    else flushAux rest { c with sink := c.sink ++ [Frame.event e] }

def flushConnection (connection : SSEConnection) : SSEConnection :=
  flushAux connection.queue connection

/-- The backpressure stage (sseManager.ts lines 94-98): if the queue is
at capacity, drop the oldest queued event (`shift`) and send the
backpressure comment; a failing comment write removes the connection
(second component `true`), after which the push and flush below still
run on the dead object, unobservably. -/
def backpressureStage (connection : SSEConnection) : SSEConnection × Bool :=
  if connection.queue.length ≥ connection.maxQueueSize then
    if connection.sinkBroken then
      ({ connection with queue := connection.queue.drop 1, connected := false }, true)
    else
      ({ connection with queue := connection.queue.drop 1,
                         sink := connection.sink ++ [Frame.comment backpressureComment] },
        false)
  else (connection, false)

/-- One connection's treatment inside `broadcast` (sseManager.ts lines
85-105): skip if not connected or filtered out; run the backpressure
stage; push the event; flush.  `none` means the connection was removed
from the registry (its sink failed). -/
def broadcastStep (event : RawEvent) (connection : SSEConnection) : Option SSEConnection :=
  if connection.connected = false then some connection
  else if filterAccepts connection.filter event = false then some connection
  else
    let (c1, removed1) := backpressureStage connection
    let c2 := { c1 with queue := c1.queue ++ [event] }
    let c3 := flushConnection c2
    if removed1 ∨ c3.connected = false then none else some c3

/-- `broadcast` (sseManager.ts lines 84-106) over the registry in
iteration order; removed connections disappear. -/
def broadcast (event : RawEvent) (connections : List SSEConnection) : List SSEConnection :=
  connections.filterMap (broadcastStep event)

/-! ## Ingest endpoint (src/api/src/routes/ingest.ts) -/

/-- The parsed JSON body of `POST /ingest`: a single event or a
`{batch: [...]}` wrapper. -/
inductive IngestBody where
  | single (e : RawEvent)
  | batch (es : List RawEvent)

/-- The ingest response: 200 `{success:true, count}` or 400
`{error:'Validation failed', details}`. -/
inductive IngestResponse where
  | ok (count : Nat)
  | validationError (details : List Issue)

/-- Truncation applied before validation (ingest.ts lines 20-22). -/
def truncateBody : IngestBody → IngestBody
  | .single e => .single (truncateEvent e)
  | .batch es => .batch (es.map truncateEvent)

/-- The events a body carries, in request order (ingest.ts line 28). -/
def bodyEvents : IngestBody → List RawEvent
  | .single e => [e]
  | .batch es => es

/-- All validation issues of the (truncated) payload, in event order;
batch issues carry the `['batch', i]` path prefix. -/
def collectIssues : IngestBody → List Issue
  | .single e => validateEvent e
  | .batch es =>
    es.enum.flatMap fun (i, e) =>
      (validateEvent e).map fun iss =>
        ⟨PathElem.key (jsStr ("batch")) :: PathElem.idx i :: iss.path, iss.message⟩

/-- Full server state touched by ingest: the store and the SSE registry. -/
structure ServerState where
  store : EventStore
  connections : List SSEConnection

/-- Per-event processing (ingest.ts lines 34-40): store append, then
broadcast. -/
def processEvent (st : ServerState) (event : RawEvent) : ServerState :=
  { store := st.store.append event, connections := broadcast event st.connections }

/-- `POST /ingest` (ingest.ts lines 14-61): truncate, validate the whole
payload, and only on success run the append/broadcast loop; any
validation failure returns 400 with the aggregated details and leaves
the state untouched. -/
def ingestPost (body : IngestBody) (st : ServerState) : IngestResponse × ServerState :=
  let truncated := truncateBody body
  let issues := collectIssues truncated
  if issues = [] then
    let events := bodyEvents truncated
    (IngestResponse.ok events.length, events.foldl processEvent st)
  else (IngestResponse.validationError issues, st)

/-! ## Body-size gate (request size-limit middleware) -/

/-- `MAX_SIZE = 256 * 1024` bytes. -/
def MAX_SIZE : Nat := 256 * 1024

/-- JavaScript `parseInt(s, 10)`: skip whitespace, optional sign,
longest digit run; `none` models `NaN`. -/
def jsParseInt (s : JsStr) : Option Int :=
  let s1 := s.dropWhile fun u => u = 32 || u = 9 || u = 10 || u = 13
  let (neg, s2) :=
    match s1 with
    | 45 :: rest => (true, rest)
    | 43 :: rest => (false, rest)
    | other => (false, other)
  let (ds, _) := spanDigits s2
  if ds = [] then none
  else
    let v : Int := ds.foldl (fun acc d => acc * 10 + (d : Int)) 0
    some (if neg then -v else v)

/-- Outcome of the size-limit middleware: a 413 rejection, or `next()`. -/
inductive GateResult where
  | rejected (status : Nat)
  | passed
  deriving DecidableEq, Repr

/-- `sizeLimit` middleware: reads the `Content-Length` header only — the
request body (second argument) is never inspected.  An absent or empty
header string is falsy, and `NaN > MAX_SIZE` is false, so the request
passes through in those cases. -/
def sizeLimit (contentLength : Option JsStr) (_body : JsStr) : GateResult :=
  match contentLength with
  | some h =>
    if h ≠ [] then
      match jsParseInt h with
      | some size => if size > (MAX_SIZE : Int) then .rejected 413 else .passed
      | none => .passed
    else .passed
  | none => .passed

/-! ## Heartbeat timing (sseManager.ts lines 178-188)

`setInterval` fires every 15 000 ms; each tick sends `:heartbeat\n\n`
to any connection whose `lastHeartbeat` is at least 15 000 ms old and
resets its `lastHeartbeat`.  For an idle connection the observable
state is `(lastHeartbeat, write times of its sink)`. -/

/-- One tick of the heartbeat interval at wall-clock `now`, for one idle
connection. -/
def heartbeatTick (now : Int) (st : Int × List Int) : Int × List Int :=
  if now - st.1 ≥ 15000 then (now, st.2 ++ [now]) else st

/-- An idle connection created at time 0 (its `connected` frame written
at 0, `lastHeartbeat = 0`), with interval ticks at `d, d + 15000,
d + 30000, …` — `d` is the phase of the pre-existing timer relative to
the connection's creation.  Returns the state after `k` ticks. -/
def heartbeatRun (d : Int) : Nat → Int × List Int
  | 0 => (0, [0])
  | k + 1 => heartbeatTick (d + 15000 * k) (heartbeatRun d k)

/-- Gaps between consecutive sink-write times. -/
def gaps : List Int → List Int
  | a :: b :: rest => (b - a) :: gaps (b :: rest)
  | _ => []

/-! # Helper lemmas -/

theorem truncationSuffix_length : truncationSuffix.length = 15 := rfl

theorem truncationSuffix_ne_nil : truncationSuffix ≠ [] := by decide

/-- Truncating a string twice is the same as truncating it once. -/
theorem truncateString_idem (s : JsStr) (n : Nat) :
    truncateString (truncateString s n) n = truncateString s n := by
  unfold truncateString
  by_cases h : s.length ≤ n
  · simp [h]
  · rw [if_neg h]
    have htake : (s.take n).length = n := by rw [List.length_take]; omega
    have hlen : (s.take n ++ truncationSuffix).length = n + truncationSuffix.length := by
      rw [List.length_append, htake]
    rw [if_neg (by rw [hlen, truncationSuffix_length]; omega)]
    congr 1
    exact List.take_left' htake

theorem truncateString_ne_nil (s : JsStr) (n : Nat) (hs : s ≠ []) :
    truncateString s n ≠ [] := by
  unfold truncateString
  split
  · exact hs
  · simp [truncationSuffix_ne_nil]

/-! # Claim theorems -/

/-- Truncating a `data` record twice is the same as truncating it once,
at every nesting depth. -/
theorem truncateDataField_idem (l : List (JsStr × JsValue)) :
    truncateDataField (truncateDataField l) = truncateDataField l := by
  induction l using truncateDataField.induct with
  | case1 => simp [truncateDataField]
  | case2 k s rest ih => simp [truncateDataField, truncateString_idem, ih]
  | case3 k fields rest ih1 ih2 => simp [truncateDataField, ih1, ih2]
  | case4 k v rest h1 h2 ih => simp [truncateDataField, ih]

/-- Closed form of `truncateEvent`: only `name` and (for spans) `data`
change; every other field is untouched. -/
theorem truncateEvent_eq (e : RawEvent) :
    truncateEvent e =
      { e with
        name := match e.name with
                | some s => if s = [] then some s else some (truncateString s MAX_NAME_LENGTH)
                | none => none,
        data := if e.type = jsStr ("span") then e.data.map truncateDataField else e.data } := by
  obtain ⟨ty, tid, sid, pid, kd, nm, gid, sa, ea, da, stt, md⟩ := e
  unfold truncateEvent
  cases nm with
  | none => cases da <;> by_cases ht : ty = jsStr ("span") <;> simp [ht]
  | some s =>
    by_cases hs : s = [] <;> cases da <;> by_cases ht : ty = jsStr ("span") <;> simp [ht, hs]

/-- C8: the truncator is idempotent: for every event `x`,
`truncateEvent (truncateEvent x) = truncateEvent x`, including for
`name` strings and for string values at any nesting depth inside a
span's `data`. -/
theorem truncateEvent_idem (e : RawEvent) :
    truncateEvent (truncateEvent e) = truncateEvent e := by
  rw [truncateEvent_eq e, truncateEvent_eq]
  have hcomp : truncateDataField ∘ truncateDataField = truncateDataField :=
    funext truncateDataField_idem
  obtain ⟨ty, tid, sid, pid, kd, nm, gid, sa, ea, da, stt, md⟩ := e
  simp only
  cases nm with
  | none =>
    by_cases ht : ty = jsStr ("span") <;>
      simp [ht, Option.map_map, hcomp, truncateDataField_idem]
  | some s =>
    by_cases hs : s = []
    · by_cases ht : ty = jsStr ("span") <;>
        simp [ht, hs, Option.map_map, hcomp, truncateDataField_idem]
    · have hne := truncateString_ne_nil s MAX_NAME_LENGTH hs
      by_cases ht : ty = jsStr ("span") <;>
        simp [ht, hs, hne, truncateString_idem, Option.map_map, hcomp,
          truncateDataField_idem]

/-- C9: a `POST /ingest` request carrying no `Content-Length` header is
never rejected with 413, whatever the size of its actual body: the
body-size gate `sizeLimit` inspects only the header value and otherwise
passes the request through (its body argument plays no part at all). -/
theorem sizeLimit_no_content_length_passes :
    (∀ body : JsStr, sizeLimit none body = GateResult.passed) ∧
    (∀ (contentLength : Option JsStr) (b1 b2 : JsStr),
      sizeLimit contentLength b1 = sizeLimit contentLength b2) :=
  ⟨fun _ => rfl, fun _ _ _ => rfl⟩

/-- C4 as stated is false: it measures names in UTF-8 bytes, but
`truncateString` measures JavaScript string length (UTF-16 code units).
A 512-character name of U+20AC encodes to 1536 UTF-8 bytes (> 1024),
yet is returned unchanged, so the stored value does not have the
claimed length `1024 + len("... [truncated]")`. -/
theorem truncateString_utf8_counterexample :
    utf8Len (List.replicate 512 0x20AC) > 1024 ∧
    truncateString (List.replicate 512 0x20AC) MAX_NAME_LENGTH = List.replicate 512 0x20AC ∧
    (truncateString (List.replicate 512 0x20AC) MAX_NAME_LENGTH).length ≠
      1024 + truncationSuffix.length := by
  refine ⟨?_, ?_, ?_⟩ <;> decide

/-- C4 (amended): the cap is measured in UTF-16 code units (JavaScript
string length), not UTF-8 bytes.  A name longer than 1024 code units is
stored as its leading 1024 code units followed by the literal
`... [truncated]` suffix, so the stored value has length
`1024 + len("... [truncated]")` and ends with the suffix; a name of
exactly 1024 code units is left unchanged; and `truncateEvent` applies
exactly this truncation to a present non-empty `name`. -/
theorem truncateString_name_cap (s : JsStr) :
    (s.length > MAX_NAME_LENGTH →
      (truncateString s MAX_NAME_LENGTH).length = 1024 + truncationSuffix.length ∧
      truncationSuffix <:+ truncateString s MAX_NAME_LENGTH) ∧
    (s.length = MAX_NAME_LENGTH → truncateString s MAX_NAME_LENGTH = s) ∧
    (∀ e : RawEvent, e.name = some s → s ≠ [] →
      (truncateEvent e).name = some (truncateString s MAX_NAME_LENGTH)) := by
  refine ⟨fun h => ?_, fun h => ?_, fun e he hs => ?_⟩
  · unfold truncateString
    rw [if_neg (by omega)]
    refine ⟨?_, ⟨s.take MAX_NAME_LENGTH, rfl⟩⟩
    rw [List.length_append, List.length_take]
    have : MAX_NAME_LENGTH = 1024 := rfl
    omega
  · unfold truncateString
    rw [if_pos (le_of_eq h)]
  · unfold truncateEvent
    rw [he]
    simp only [if_neg hs]
    cases hd : e.data with
    | none => rfl
    | some d =>
      by_cases ht : e.type = jsStr ("span") <;> simp [ht]

/-- Witness for `truncateString_name_cap` at concrete inputs: a name of
1025 `A`s is truncated to the claimed shape, a name of 1024 `A`s is
unchanged, and `truncateEvent` truncates a 1025-unit name in place. -/
theorem truncateString_name_cap_witness :
    ((truncateString (List.replicate 1025 65) MAX_NAME_LENGTH).length =
        1024 + truncationSuffix.length ∧
      truncationSuffix <:+ truncateString (List.replicate 1025 65) MAX_NAME_LENGTH) ∧
    truncateString (List.replicate 1024 65) MAX_NAME_LENGTH = List.replicate 1024 65 ∧
    (truncateEvent { type := jsStr ("trace"), name := some (List.replicate 1025 65) }).name =
      some (truncateString (List.replicate 1025 65) MAX_NAME_LENGTH) :=
  ⟨(truncateString_name_cap (List.replicate 1025 65)).1 (by decide),
   (truncateString_name_cap (List.replicate 1024 65)).2.1 (by decide),
   (truncateString_name_cap (List.replicate 1025 65)).2.2 _ rfl (by decide)⟩

/-- Appending one write time extends the gap list by the difference with
the previous last write. -/
theorem gaps_append_pair (w : List Int) (a x : Int) :
    gaps (w ++ [a, x]) = gaps (w ++ [a]) ++ [x - a] := by
  induction w with
  | nil => simp [gaps]
  | cons b w ih =>
    cases w with
    | nil => simp [gaps]
    | cons c w' =>
      simp only [List.cons_append, gaps]
      exact congrArg (List.cons (c - b)) ih

/-- Invariant of the idle heartbeat run: the write list ends with the
current `lastHeartbeat`, which lags the next tick by less than 30 s, and
every sink-write gap so far is at most 29 999 ms. -/
theorem heartbeatRun_invariant (d : Int) (h0 : 0 ≤ d) (h1 : d ≤ 14999) (k : Nat) :
    ∃ w, (heartbeatRun d k).2 = w ++ [(heartbeatRun d k).1] ∧
      d + 15000 * k - 29999 ≤ (heartbeatRun d k).1 ∧
      ∀ g ∈ gaps (heartbeatRun d k).2, g ≤ 29999 := by
  induction k with
  | zero =>
    refine ⟨[], by simp [heartbeatRun], by simp [heartbeatRun]; omega, ?_⟩
    simp [heartbeatRun, gaps]
  | succ k ih =>
    obtain ⟨w, hw, hb, hg⟩ := ih
    rcases hrw : heartbeatRun d k with ⟨lhb, ws⟩
    rw [hrw] at hw hb hg
    simp only at hw hb hg
    have hstep : heartbeatRun d (k + 1) = heartbeatTick (d + 15000 * k) (lhb, ws) := by
      simp only [heartbeatRun, hrw]
    rw [hstep]
    unfold heartbeatTick
    by_cases hc : d + 15000 * (k : Int) - lhb ≥ 15000
    · rw [if_pos hc]
      refine ⟨ws, by simp, by simp; omega, ?_⟩
      intro g hgmem
      simp only at hgmem
      rw [hw, List.append_assoc] at hgmem
      simp only [List.cons_append, List.nil_append] at hgmem
      rw [gaps_append_pair] at hgmem
      rcases List.mem_append.1 hgmem with h | h
      · exact hg g (by rw [hw]; exact h)
      · simp at h
        omega
    · rw [if_neg hc]
      exact ⟨w, hw, by simp; omega, hg⟩

/-- A flush on a live connection with a working sink drains the whole
queue to the sink, in order. -/
theorem flushAux_ok (q : List RawEvent) :
    ∀ c : SSEConnection, c.connected = true → c.sinkBroken = false →
      flushAux q c = { c with queue := [], sink := c.sink ++ q.map Frame.event } := by
  induction q with
  | nil => intro c hc hs; simp [flushAux]
  | cons e rest ih =>
    intro c hc hs
    rw [flushAux, if_neg (by rw [hc]; simp), if_neg (by rw [hs]; simp),
      ih { c with sink := c.sink ++ [Frame.event e] } hc hs]
    simp

/-- A flush never changes the capacity, and it either leaves the
connection dead (sink failure) or its queue empty. -/
theorem flushAux_shape (q : List RawEvent) :
    ∀ c : SSEConnection, (flushAux q c).maxQueueSize = c.maxQueueSize ∧
      ((flushAux q c).connected = false ∨ (flushAux q c).queue = []) := by
  induction q with
  | nil => intro c; exact ⟨rfl, Or.inr (by simp [flushAux])⟩
  | cons e rest ih =>
    intro c
    rw [flushAux]
    by_cases hc : c.connected = false
    · rw [if_pos hc]; exact ⟨rfl, Or.inl hc⟩
    · rw [if_neg hc]
      by_cases hs : c.sinkBroken
      · rw [if_pos hs]; exact ⟨rfl, Or.inl rfl⟩
      · rw [if_neg hs]
        exact ih { c with sink := c.sink ++ [Frame.event e] }

theorem backpressureStage_shape (c : SSEConnection) :
    (backpressureStage c).1.maxQueueSize = c.maxQueueSize := by
  unfold backpressureStage
  split
  · split <;> rfl
  · rfl

/-- A connection surviving `broadcastStep` is either untouched (skipped
by the liveness or filter check) or fully flushed, with its capacity
unchanged. -/
theorem broadcastStep_cases (e : RawEvent) (c c' : SSEConnection)
    (h : broadcastStep e c = some c') :
    c' = c ∨ (c'.maxQueueSize = c.maxQueueSize ∧ c'.queue = []) := by
  unfold broadcastStep at h
  by_cases hc : c.connected = false
  · rw [if_pos hc] at h; exact Or.inl (Option.some.inj h).symm
  · rw [if_neg hc] at h
    by_cases hf : filterAccepts c.filter e = false
    · rw [if_pos hf] at h; exact Or.inl (Option.some.inj h).symm
    · rw [if_neg hf] at h
      rcases hbs : backpressureStage c with ⟨c1, r1⟩
      rw [hbs] at h
      dsimp only at h
      rw [flushConnection] at h
      by_cases hrem : r1 = true ∨
          (flushAux ({ c1 with queue := c1.queue ++ [e] }).queue
            { c1 with queue := c1.queue ++ [e] }).connected = false
      · rw [if_pos hrem] at h; exact absurd h (by simp)
      · rw [if_neg hrem] at h
        have hc' : c' = flushAux ({ c1 with queue := c1.queue ++ [e] }).queue
            { c1 with queue := c1.queue ++ [e] } := (Option.some.inj h).symm
        right
        have hmax1 : c1.maxQueueSize = c.maxQueueSize := by
          have := backpressureStage_shape c
          rw [hbs] at this
          exact this
        refine ⟨by rw [hc', (flushAux_shape _ _).1]; exact hmax1, ?_⟩
        rcases (flushAux_shape ({ c1 with queue := c1.queue ++ [e] }).queue
            { c1 with queue := c1.queue ++ [e] }).2 with hdead | hq
        · exact absurd (Or.inr hdead) hrem
        · rw [hc']; exact hq

/-- A live, accepting connection with an empty queue and a working sink
receives exactly the event's `data:` frame. -/
theorem broadcastStep_live (e : RawEvent) (c : SSEConnection) (hc : c.connected = true)
    (hs : c.sinkBroken = false) (hq : c.queue = []) (hm : 0 < c.maxQueueSize) :
    broadcastStep e c =
      some (if filterAccepts c.filter e then { c with sink := c.sink ++ [Frame.event e] }
            else c) := by
  obtain ⟨cid, cq, cmax, cfil, clh, ccon, csink, cbrk⟩ := c
  simp only at hc hs hq hm
  subst hc hs hq
  by_cases hf : filterAccepts cfil e
  · rw [if_pos hf]
    unfold broadcastStep backpressureStage
    simp only [hf]
    have hbp : ¬ ([] : List RawEvent).length ≥ cmax := by simp; omega
    simp only [if_neg hbp, flushConnection]
    rw [flushAux_ok ([] ++ [e]) _ rfl rfl]
    simp
  · rw [if_neg hf]
    unfold broadcastStep
    simp [hf]

/-- A live, accepting connection at capacity with a working sink: drop
the oldest, one backpressure comment frame, enqueue, full flush. -/
theorem broadcastStep_backpressure (e : RawEvent) (c : SSEConnection) (hc : c.connected = true)
    (hs : c.sinkBroken = false) (hf : filterAccepts c.filter e = true)
    (hq : c.queue.length = c.maxQueueSize) (hm : 0 < c.maxQueueSize) :
    broadcastStep e c =
      some { c with
             queue := [],
             sink := (c.sink ++ [Frame.comment backpressureComment]) ++
               (c.queue.drop 1 ++ [e]).map Frame.event } := by
  obtain ⟨cid, cq, cmax, cfil, clh, ccon, csink, cbrk⟩ := c
  simp only at hc hs hf hq hm ⊢
  subst hc hs hq
  unfold broadcastStep backpressureStage
  simp only [hf]
  have hbp : cq.length ≥ cq.length := le_refl _
  simp only [if_pos hbp, flushConnection]
  simp only [Bool.false_eq_true, if_false, if_true]
  rw [flushAux_ok (cq.drop 1 ++ [e]) _ rfl rfl]
  simp

/-- A live, accepting connection with a broken sink is removed from the
registry by `broadcastStep`. -/
theorem broadcastStep_broken_removed (e : RawEvent) (c : SSEConnection)
    (hc : c.connected = true) (hs : c.sinkBroken = true)
    (hf : filterAccepts c.filter e = true) :
    broadcastStep e c = none := by
  obtain ⟨cid, cq, cmax, cfil, clh, ccon, csink, cbrk⟩ := c
  simp only at hc hs hf
  subst hc hs
  unfold broadcastStep
  simp only [hf]
  by_cases hbp : cq.length ≥ cmax
  · simp [backpressureStage, hbp]
  · simp only [backpressureStage, hbp, if_false]
    cases cq with
    | nil => simp [flushConnection, flushAux]
    | cons a t => simp [flushConnection, flushAux]

theorem sinceRejects_iff (sa : JsStr) (since : Option Int) :
    sinceRejects sa since = true ↔
      ∃ t s, parseDate sa = some t ∧ since = some s ∧ t < s := by
  unfold sinceRejects
  cases hp : parseDate sa <;> cases hsI : since <;> simp

/-- The code's filter, characterised: a present non-empty `traceId`
requires equality; `kinds` (spans only) requires a present non-empty
member kind; `since` (spans only) rejects exactly a present non-empty
`started_at` parsing strictly before `since`. -/
theorem matchesFilter_iff (e : RawEvent) (F : ConnectionFilter) :
    matchesFilter e F = true ↔
      ((∀ t, F.traceId = some t → t ≠ [] → e.trace_id = some t) ∧
       (∀ ks, F.kinds = some ks → e.type = jsStr ("span") →
         ∃ kd, e.kind = some kd ∧ kd ≠ [] ∧ ks.contains kd = true) ∧
       (∀ s, F.since = some s → e.type = jsStr ("span") →
         ∀ sa, e.started_at = some sa → sa ≠ [] →
           ∀ t, parseDate sa = some t → s ≤ t)) := by
  unfold matchesFilter
  constructor
  · intro h
    split_ifs at h with h1 h2 h3
    push_neg at h1
    refine ⟨?_, ?_, ?_⟩
    · intro t ht htne
      rw [ht] at h1
      simp only [Option.getD_some] at h1
      exact h1 htne
    · intro ks hks hspan
      have h2' : ¬ (e.kind.getD [] = [] ∨ (F.kinds.getD []).contains (e.kind.getD []) = false) := by
        intro hbad
        exact h2 ⟨by rw [hks]; rfl, hspan, hbad⟩
      push_neg at h2'
      obtain ⟨hkdne, hcont⟩ := h2'
      cases hkd : e.kind with
      | none => rw [hkd] at hkdne; simp at hkdne
      | some kd =>
        rw [hkd] at hkdne hcont
        simp only [Option.getD_some] at hkdne hcont
        rw [hks] at hcont
        simp only [Option.getD_some] at hcont
        exact ⟨kd, rfl, hkdne, by simpa using hcont⟩
    · intro s hsince hspan sa hsa hne t hparse
      by_contra hlt
      apply h3
      refine ⟨by rw [hsince]; rfl, hspan, by rw [hsa]; simpa using hne, ?_⟩
      rw [hsa]
      simp only [Option.getD_some]
      rw [sinceRejects_iff]
      exact ⟨t, s, hparse, hsince, by omega⟩
  · rintro ⟨hA, hB, hC⟩
    split_ifs with h1 h2 h3
    · obtain ⟨hne, hneq⟩ := h1
      cases hti : F.traceId with
      | none => rw [hti] at hne; simp at hne
      | some t =>
        rw [hti] at hne hneq
        simp only [Option.getD_some] at hne
        exact absurd (hA t hti hne) hneq
    · obtain ⟨hsome, hspan, hbad⟩ := h2
      cases hks : F.kinds with
      | none => rw [hks] at hsome; simp at hsome
      | some ks =>
        obtain ⟨kd, hkd, hkdne, hcont⟩ := hB ks hks hspan
        rw [hkd, hks] at hbad
        simp only [Option.getD_some] at hbad
        rcases hbad with hbad | hbad
        · exact hkdne hbad
        · rw [hcont] at hbad; simp at hbad
    · obtain ⟨hsome, hspan, hsane, hrej⟩ := h3
      cases hsa : e.started_at with
      | none => rw [hsa] at hsane; simp at hsane
      | some sa =>
        rw [hsa] at hsane hrej
        simp only [Option.getD_some] at hsane hrej
        rw [sinceRejects_iff] at hrej
        obtain ⟨t, s, hp, hs, hlt⟩ := hrej
        have := hC s hs hspan sa hsa hsane t hp
        exact absurd this (by omega)
    · rfl

/-- C7 as stated is false on the code, on two counts.  (1) With the
heartbeat interval phase 14 999 ms after an idle connection's creation,
the first tick sees only 14 999 ms elapsed and skips, so the gap between
the connection's `connected` frame (time 0) and its first heartbeat
write is 29 999 ms > 15 s.  (2) The heartbeat frame is
`:heartbeat\n\n` — `sendComment` writes `` `:${comment}\n\n` `` with no
space — not the claimed `: heartbeat\n\n`. -/
theorem heartbeat_claim_counterexample :
    (∃ g ∈ gaps (heartbeatRun 14999 2).2, g > 15000) ∧
    commentBytes (jsStr ("heartbeat")) ≠ jsStr (": heartbeat") ++ [10, 10] := by
  constructor
  · exact ⟨29999, by decide, by decide⟩
  · decide

/-- C7 (amended): while a subscriber stays connected and idle, each
heartbeat write is the comment frame `:heartbeat\n\n` (no space after
the colon), and the gap between consecutive sink writes is at most
29 999 ms — just under two heartbeat periods — whatever the phase
`d ∈ [0, 15000)` of the 15-second interval timer relative to the
connection's creation. -/
theorem heartbeat_gap_bound (d : Int) (k : Nat) (h0 : 0 ≤ d) (h1 : d ≤ 14999) :
    (∀ g ∈ gaps (heartbeatRun d k).2, g ≤ 29999) ∧
    commentBytes (jsStr ("heartbeat")) = jsStr (":heartbeat") ++ [10, 10] := by
  refine ⟨?_, by decide⟩
  obtain ⟨w, -, -, hg⟩ := heartbeatRun_invariant d h0 h1 k
  exact hg

/-- Witness for `heartbeat_gap_bound` at phase 7000 ms over 4 ticks. -/
theorem heartbeat_gap_bound_witness :
    (∀ g ∈ gaps (heartbeatRun 7000 4).2, g ≤ 29999) ∧
    commentBytes (jsStr ("heartbeat")) = jsStr (":heartbeat") ++ [10, 10] :=
  heartbeat_gap_bound 7000 4 (by decide) (by decide)

/-- The filter semantics exactly as C2 states them (a definition of the
claim's words, for comparison with the code's `matchesFilter`): every
present part restricts; `kinds` needs the span's kind present and a
member; `since` needs `started_at ≥ since`. -/
def specMatchesFilter (event : RawEvent) (filter : ConnectionFilter) : Bool :=
  (match filter.traceId with
   | some t => decide (event.trace_id = some t)
   | none => true) &&
  (match filter.kinds with
   | some ks =>
     if event.type = jsStr ("span") then
       match event.kind with
       | some kd => ks.contains kd
       | none => false
     else true
   | none => true) &&
  (match filter.since with
   | some s =>
     if event.type = jsStr ("span") then
       match event.started_at with
       | some sa =>
         match parseDate sa with
         | some t => decide (s ≤ t)
         | none => false
       | none => true
     else true
   | none => true)

/-- A schema-valid span whose `kind` is the empty string. -/
def emptyKindSpan : RawEvent :=
  { type := jsStr ("span"), trace_id := some (jsStr ("t1")), span_id := some (jsStr ("s1")),
    kind := some [] }

/-- The filter produced by `GET /events?kinds=,` — a Set containing only
the empty string. -/
def emptyKindsFilter : ConnectionFilter := { kinds := some [[]] }

def emptyKindsConn : SSEConnection :=
  { id := 1, queue := [], maxQueueSize := MAX_QUEUE_SIZE, filter := some emptyKindsFilter,
    lastHeartbeat := 0, connected := true, sink := [], sinkBroken := false }

/-- C2 as stated is false at a concrete, reachable input: this span is
schema-valid (an empty-string `kind` is allowed by
`z.string().optional()`) and the filter arises from
`GET /events?kinds=,` (its Set contains exactly the empty string).
Under the claim's semantics the span's kind is present and a member of
the set, so the event passes; the code's truthiness check `!event.kind`
rejects it, and broadcast delivers nothing to the subscriber's sink. -/
theorem matchesFilter_claim_counterexample :
    validateEvent emptyKindSpan = [] ∧
    specMatchesFilter emptyKindSpan emptyKindsFilter = true ∧
    matchesFilter emptyKindSpan emptyKindsFilter = false ∧
    broadcast emptyKindSpan [emptyKindsConn] = [emptyKindsConn] :=
  ⟨rfl, rfl, rfl, rfl⟩

/-- C2 (amended): for a live subscription with a working sink and an
empty queue, `broadcast` appends `e`'s `data:` frame to its sink exactly
when the filter accepts it (an absent filter accepts everything), and
acceptance means: a present **non-empty** `traceId` requires exact
equality of `trace_id` (traces and spans alike); `kinds` restricts only
spans, requiring the span's kind to be present, **non-empty**, and a
member of the set; `since` restricts only spans, rejecting exactly those
with a present **non-empty** `started_at` that parses to a time strictly
before `since` (equality passes; unparseable values pass); trace events
are never restricted by `kinds` or `since`. -/
theorem broadcast_filter_semantics (e : RawEvent) (F : ConnectionFilter) :
    (matchesFilter e F = true ↔
      ((∀ t, F.traceId = some t → t ≠ [] → e.trace_id = some t) ∧
       (∀ ks, F.kinds = some ks → e.type = jsStr ("span") →
         ∃ kd, e.kind = some kd ∧ kd ≠ [] ∧ ks.contains kd = true) ∧
       (∀ s, F.since = some s → e.type = jsStr ("span") →
         ∀ sa, e.started_at = some sa → sa ≠ [] →
           ∀ t, parseDate sa = some t → s ≤ t))) ∧
    (∀ c : SSEConnection, c.connected = true → c.sinkBroken = false → c.queue = [] →
      0 < c.maxQueueSize →
      broadcastStep e c =
        some (if filterAccepts c.filter e then { c with sink := c.sink ++ [Frame.event e] }
              else c)) :=
  ⟨matchesFilter_iff e F, fun c hc hs hq hm => broadcastStep_live e c hc hs hq hm⟩

/-- A schema-valid span with kind `agent`. -/
def agentSpan : RawEvent :=
  { type := jsStr ("span"), trace_id := some (jsStr ("t1")), span_id := some (jsStr ("s2")),
    kind := some (jsStr ("agent")) }

def agentConn : SSEConnection :=
  { id := 2, queue := [], maxQueueSize := MAX_QUEUE_SIZE,
    filter := some { kinds := some [jsStr ("agent")] },
    lastHeartbeat := 0, connected := true, sink := [], sinkBroken := false }

/-- Witness for `broadcast_filter_semantics` at a concrete live
subscription filtered on kind `agent`. -/
theorem broadcast_filter_semantics_witness :
    broadcastStep agentSpan agentConn =
      some (if filterAccepts agentConn.filter agentSpan
            then { agentConn with sink := agentConn.sink ++ [Frame.event agentSpan] }
            else agentConn) :=
  (broadcast_filter_semantics agentSpan
      { kinds := some [jsStr ("agent")] }).2 agentConn rfl rfl rfl (by decide)

/-- C3: (a) `broadcast` preserves the per-subscriber queue bound
`|queue| ≤ Q` for every subscription still registered; (b) a fresh
connection starts with an empty queue of capacity `MAX_QUEUE_SIZE`, and
`Q = MAX_QUEUE_SIZE = 5000`; (c) the backpressure comment frame is
byte-for-byte `:warning stream backpressure; events skipped` followed by
the SSE frame terminator; (d) when broadcast finds a live accepting
subscriber's queue at capacity (sink working), it drops the oldest
queued event, writes exactly one such comment frame, and then enqueues
the new event — the synchronous flush then drains the queue to the sink;
the step is total, never blocking ingest. -/
theorem broadcast_queue_bound_and_backpressure (e : RawEvent) :
    (∀ subs : List SSEConnection, (∀ S ∈ subs, S.queue.length ≤ S.maxQueueSize) →
      ∀ S' ∈ broadcast e subs, S'.queue.length ≤ S'.maxQueueSize) ∧
    (∀ f n now ts, (createConnection f n now ts).queue = [] ∧
      (createConnection f n now ts).maxQueueSize = MAX_QUEUE_SIZE) ∧
    MAX_QUEUE_SIZE = 5000 ∧
    commentBytes backpressureComment =
      jsStr (":warning stream backpressure; events skipped") ++ [10, 10] ∧
    (∀ c : SSEConnection, c.connected = true → c.sinkBroken = false →
      filterAccepts c.filter e = true → c.queue.length = c.maxQueueSize →
      0 < c.maxQueueSize →
      broadcastStep e c =
        some { c with
               queue := [],
               sink := (c.sink ++ [Frame.comment backpressureComment]) ++
                 (c.queue.drop 1 ++ [e]).map Frame.event }) := by
  refine ⟨?_, fun f n now ts => ⟨rfl, rfl⟩, rfl, by decide,
    fun c hc hs hf hq hm => broadcastStep_backpressure e c hc hs hf hq hm⟩
  intro subs hbound S' hS'
  rw [broadcast] at hS'
  obtain ⟨S, hSmem, hstep⟩ := List.mem_filterMap.1 hS'
  rcases broadcastStep_cases e S S' hstep with rfl | ⟨hmax, hq⟩
  · exact hbound S' hSmem
  · rw [hq, hmax]
    simp

/-- A live connection whose queue is at its (small, for the witness)
capacity of 2. -/
def fullConn : SSEConnection :=
  { id := 3, queue := [agentSpan, agentSpan], maxQueueSize := 2, filter := none,
    lastHeartbeat := 0, connected := true, sink := [], sinkBroken := false }

/-- Witness for `broadcast_queue_bound_and_backpressure` at a connection
at capacity. -/
theorem broadcast_queue_bound_and_backpressure_witness :
    (∀ S' ∈ broadcast agentSpan [fullConn], S'.queue.length ≤ S'.maxQueueSize) ∧
    broadcastStep agentSpan fullConn =
      some { fullConn with
             queue := [],
             sink := (fullConn.sink ++ [Frame.comment backpressureComment]) ++
               ((fullConn.queue.drop 1 ++ [agentSpan]).map Frame.event) } :=
  ⟨(broadcast_queue_bound_and_backpressure agentSpan).1 [fullConn]
      (by intro S hS; simp at hS; subst hS; decide),
   (broadcast_queue_bound_and_backpressure agentSpan).2.2.2.2 fullConn rfl rfl rfl rfl
      (by decide)⟩

/-- C10: if every registered subscription enters `broadcast` with an
empty queue (the steady state the manager maintains), then every
subscription still registered when `broadcast` returns has an empty
queue — each enqueued event was synchronously flushed to the sink — and
a live, accepting subscription whose sink write fails is removed from
the registry; hence a non-empty queue can only belong to a removed
(disconnected) subscription. -/
theorem broadcast_flushes_queues (e : RawEvent) (subs : List SSEConnection)
    (h : ∀ S ∈ subs, S.queue = []) :
    (∀ S' ∈ broadcast e subs, S'.queue = []) ∧
    (∀ S ∈ subs, S.connected = true → S.sinkBroken = true →
      filterAccepts S.filter e = true → broadcastStep e S = none) := by
  refine ⟨?_, fun S _ hc hs hf => broadcastStep_broken_removed e S hc hs hf⟩
  intro S' hS'
  rw [broadcast] at hS'
  obtain ⟨S, hSmem, hstep⟩ := List.mem_filterMap.1 hS'
  rcases broadcastStep_cases e S S' hstep with rfl | ⟨-, hq⟩
  · exact h S' hSmem
  · exact hq

/-- A live connection with an empty queue whose sink throws on write. -/
def brokenConn : SSEConnection :=
  { id := 4, queue := [], maxQueueSize := MAX_QUEUE_SIZE, filter := none,
    lastHeartbeat := 0, connected := true, sink := [], sinkBroken := true }

/-- Witness for `broadcast_flushes_queues`: a broken-sink subscriber is
removed and every survivor's queue is empty. -/
theorem broadcast_flushes_queues_witness :
    (∀ S' ∈ broadcast agentSpan [brokenConn], S'.queue = []) ∧
    (∀ S ∈ [brokenConn], S.connected = true → S.sinkBroken = true →
      filterAccepts S.filter agentSpan = true → broadcastStep agentSpan S = none) :=
  broadcast_flushes_queues agentSpan [brokenConn]
    (by intro S hS; simp at hS; subst hS; rfl)

end Ariadne
